import Mathlib

/-!
Shallow embedding of the TransEaseFTP server control plane
(source: src/TransEaseFTP.py).

The embedding covers:
 * `FTPConfigManager` (configparser-backed configuration store):
   `load_config`, `create_default_config`, `get`, `save`;
 * `FTPServerThread` (the worker): `run`, `stop`;
 * `WindowsFTPHandler` (encoding adaptation layer): `decode`, `encode`;
 * `FTPMainWindow`'s supervisor methods `_start_server`, `_stop_server`,
   `_toggle_server`, modelled as transitions on an explicit supervisor
   state carrying the emitted Qt signals as a list of events.

External collaborators are modelled explicitly:
 * the file system as an `FS` record (parsed config file content,
   the set of existing directories, and which paths `os.makedirs`
   can create);
 * Python `str`/`int`/`configparser.getboolean` conversions as
   executable functions on strings;
 * Python codecs as a `Codec` record (a prefix decoder consuming at
   least one byte, and a per-character encoder), with the `errors`
   policy (`strict` / `replace`) made explicit, as in
   `bytes.decode(encoding, errors=...)`.

The config file is modelled at the parsed level (section/key/value
lists) rather than as INI text; `configparser` in its default strict
mode rejects duplicate sections/options, so section and option lists
are association lists updated in place.
-/

namespace TransEase

/-! ### Python-level primitive conversions -/

/-- Decimal digit character, as produced by Python `str()` on an int. -/
def digitChar (n : Nat) : Char := Char.ofNat (48 + n)

/-- Digit list of a natural number, most significant digit first.
Fuel-driven so the recursion is structural; fuel `n + 1` always suffices. -/
def natDigitsAux : Nat → Nat → List Char
  | 0, _ => []
  | fuel + 1, n =>
    if n < 10 then [digitChar n]
    else natDigitsAux fuel (n / 10) ++ [digitChar (n % 10)]

/-- Models Python `str(n)` for a nonnegative integer. -/
def natToStr (n : Nat) : String := ⟨natDigitsAux (n + 1) n⟩

/-- Models Python `str(i)` on an arbitrary int. -/
def intToStr : Int → String
  | Int.ofNat n => natToStr n
  | Int.negSucc n => "-" ++ natToStr (n + 1)

/-- Numeric value of a decimal digit character. -/
def digitVal (c : Char) : Option Nat :=
  if 48 ≤ c.toNat ∧ c.toNat ≤ 57 then some (c.toNat - 48) else Option.none

/-- Left fold of decimal digits onto an accumulator; fails on a non-digit. -/
def parseDigitsFold : Nat → List Char → Option Nat
  | acc, [] => some acc
  | acc, c :: cs =>
    match digitVal c with
    | some d => parseDigitsFold (acc * 10 + d) cs
    | Option.none => Option.none

/-- Parser for a nonempty run of decimal digits. -/
def parseDigits (l : List Char) : Option Nat :=
  match l with
  | [] => Option.none
  | _ :: _ => parseDigitsFold 0 l

/-- Models Python `int(s)` (optional sign followed by decimal digits), the
conversion used by `configparser.getint`; `Option.none` models `ValueError`. -/
def pyInt (s : String) : Option Int :=
  match s.data with
  | '-' :: rest => (parseDigits rest).map (fun n => -(n : Int))
  | '+' :: rest => (parseDigits rest).map (fun n => (n : Int))
  | l => (parseDigits l).map (fun n => (n : Int))

/-- ASCII lowercasing of one character, enough for the strings this
program compares case-insensitively. -/
def lowerChar (c : Char) : Char :=
  if 65 ≤ c.toNat ∧ c.toNat ≤ 90 then Char.ofNat (c.toNat + 32) else c

/-- Models Python `str.lower()` on the ASCII range. -/
def strLower (s : String) : String := ⟨s.data.map lowerChar⟩

/-- Models `configparser.getboolean`'s value table (`BOOLEAN_STATES`,
matched after lowercasing); `Option.none` models `ValueError`. -/
def pyBool (s : String) : Option Bool :=
  let t := strLower s
  if t = "1" ∨ t = "yes" ∨ t = "true" ∨ t = "on" then some true
  else if t = "0" ∨ t = "no" ∨ t = "false" ∨ t = "off" then some false
  else Option.none

/-- A Python value handed to `FTPConfigManager.save` (the `Any` in
`Dict[str, Dict[str, Any]]`): the program passes ints, bools and strings. -/
inductive PyIn where
  | i (n : Int)
  | b (bb : Bool)
  | s (str : String)
deriving DecidableEq

/-- Models Python `str(value)` on the values the program stores. -/
def pyStr : PyIn → String
  | .i n => intToStr n
  | .b true => "True"
  | .b false => "False"
  | .s str => str

/-- A value returned by `FTPConfigManager.get` (`-> Any` in the source):
an int (from `getint`), a bool (from `getboolean`), a string, or Python
`None` (when both the stored value and the schema default are absent). -/
inductive PyVal where
  | i (n : Int)
  | b (bb : Bool)
  | s (str : String)
  | noneV
deriving DecidableEq

/-- Models Python `str()` on a `get` result (used in f-strings and when a
value flows into a path or message). -/
def pvStr : PyVal → String
  | .i n => intToStr n
  | .b true => "True"
  | .b false => "False"
  | .s str => str
  | .noneV => "None"

/-! ### configparser model -/

/-- Lookup in a string-keyed association list (first match). -/
def lookupP {α : Type} : List (String × α) → String → Option α
  | [], _ => Option.none
  | (k1, v1) :: rest, k => if k1 = k then some v1 else lookupP rest k

/-- In-place update (or append) in a string-keyed association list, the
behaviour of `configparser` setting an option or section. -/
def setP {α : Type} : List (String × α) → String → α → List (String × α)
  | [], k, v => [(k, v)]
  | (k1, v1) :: rest, k, v =>
    if k1 = k then (k1, v) :: rest else (k1, v1) :: setP rest k v

/-- One section's options: an association list of key/value strings. -/
abbrev Assoc := List (String × String)

/-- Option lookup inside a section. -/
abbrev lookupA : Assoc → String → Option String := lookupP

/-- Option update inside a section. -/
abbrev setA : Assoc → String → String → Assoc := setP

/-- The sections of a parser (or of the persisted file): an association
list from section name to options. -/
abbrev Sections := List (String × Assoc)

/-- Lookup of a section by name. -/
abbrev lookupS : Sections → String → Option Assoc := lookupP

/-- In-place update of a section's options. -/
abbrev setS : Sections → String → Assoc → Sections := setP

/-- The state of `self.config : configparser.ConfigParser`. -/
structure ConfigParser where
  sections : Sections
deriving DecidableEq

/-- `config.has_section(sec)`. -/
def ConfigParser.hasSection (cp : ConfigParser) (sec : String) : Bool :=
  (lookupS cp.sections sec).isSome

/-- `config.add_section(sec)` (on a parser not already holding `sec`). -/
def ConfigParser.addSection (cp : ConfigParser) (sec : String) : ConfigParser :=
  ⟨cp.sections ++ [(sec, [])]⟩

/-- `config.get(sec, key)` raising `NoSectionError`/`NoOptionError`,
modelled as `Option.none`. -/
def ConfigParser.rawGet (cp : ConfigParser) (sec key : String) : Option String :=
  (lookupS cp.sections sec).bind (fun a => lookupA a key)

/-- `config.has_option(sec, key)`. -/
def ConfigParser.hasOption (cp : ConfigParser) (sec key : String) : Bool :=
  (cp.rawGet sec key).isSome

/-- `config.set(sec, key, val)`; `Option.none` models `NoSectionError`. -/
def ConfigParser.set (cp : ConfigParser) (sec key val : String) : Option ConfigParser :=
  match lookupS cp.sections sec with
  | some a => some ⟨setS cp.sections sec (setA a key val)⟩
  | Option.none => Option.none

/-- Merging one parsed file section into the parser, as `config.read` does:
values of an existing section are updated in place, a new section is
appended wholesale. -/
def mergeSection (cp : ConfigParser) (sec : String) (opts : Assoc) : ConfigParser :=
  match lookupS cp.sections sec with
  | some a => ⟨setS cp.sections sec (opts.foldl (fun acc kv => setA acc kv.1 kv.2) a)⟩
  | Option.none => ⟨cp.sections ++ [(sec, opts)]⟩

/-- `config.read(path)` on the parsed content of the file. -/
def ConfigParser.read (cp : ConfigParser) (file : Sections) : ConfigParser :=
  file.foldl (fun c so => mergeSection c so.1 so.2) cp

/-! ### File-system model -/

/-- The file-system state visible to the program: the parsed content of
`config.ini` (when it exists), the set of existing directories, and which
paths `os.makedirs` is able to create. -/
structure FS where
  file : Option Sections
  dirs : List String
  creatable : String → Bool

/-- `os.makedirs(path, exist_ok=True)`: succeeds silently on an existing
directory, creates the path when possible, raises (`Except.error`)
otherwise. -/
def makedirs (fs : FS) (path : String) : Except String FS :=
  if path ∈ fs.dirs then .ok fs
  else if fs.creatable path then .ok { fs with dirs := path :: fs.dirs }
  else .error "OSError"

/-! ### FTPConfigManager -/

/-- `FTPConfigManager.DEFAULT_CONFIG['general']`; `cwd` stands for
`os.path.abspath(os.getcwd())` evaluated at class-definition time. -/
def DEFAULT_general (cwd : String) : Assoc :=
  [("port", "21"), ("root_path", cwd), ("max_connections", "50"),
   ("timeout", "300"), ("encoding", "gb18030"), ("log_level", "INFO"),
   ("save_log", "False")]

/-- `DEFAULT_CONFIG.get(section, {}).get(key)`, the fallback used by
`FTPConfigManager.get`. -/
def DEFAULT_lookup (cwd : String) (sec key : String) : Option String :=
  if sec = "general" then lookupA (DEFAULT_general cwd) key else Option.none

/-- `FTPConfigManager.get(section, key)`: typed conversion with fallback to
the raw schema default on `NoSectionError`, `NoOptionError` or
`ValueError`.  Note the fallback is whatever string (or `None`) sits in
`DEFAULT_CONFIG`, not a typed value. -/
def get (cwd : String) (cp : ConfigParser) (sec key : String) : PyVal :=
  let dflt : PyVal :=
    match DEFAULT_lookup cwd sec key with
    | some s => .s s
    | Option.none => .noneV
  if sec = "general" ∧ (key = "port" ∨ key = "max_connections" ∨ key = "timeout") then
    match cp.rawGet sec key with
    | some v =>
      match pyInt v with
      | some n => .i n
      | Option.none => dflt
    | Option.none => dflt
  else if sec = "general" ∧ key = "save_log" then
    match cp.rawGet sec key with
    | some v =>
      match pyBool v with
      | some bv => .b bv
      | Option.none => dflt
    | Option.none => dflt
  else
    match cp.rawGet sec key with
    | some v => .s v
    | Option.none => dflt

/-- The body of `create_default_config` acting on the parser: add the
`general` section (the config is fresh at this point) and set every
default option. -/
def writeDefaults (cwd : String) (cp : ConfigParser) : ConfigParser :=
  let cp1 := cp.addSection "general"
  match lookupS cp1.sections "general" with
  | some a =>
    ⟨setS cp1.sections "general"
      ((DEFAULT_general cwd).foldl (fun acc kv => setA acc kv.1 kv.2) a)⟩
  | Option.none => cp1

/-- `FTPConfigManager.create_default_config`: fill the parser with the
defaults and write it out to the config file. -/
def create_default_config (cwd : String) (cp : ConfigParser) (fs : FS) :
    ConfigParser × FS :=
  let cp2 := writeDefaults cwd cp
  (cp2, { fs with file := some cp2.sections })

/-- One step of the repair loop in `load_config`: set the default for a
recognized key only when the option is missing. -/
def fillOptions (a : Assoc) : List (String × String) → Assoc
  | [] => a
  | (k, v) :: rest =>
    fillOptions (if (lookupA a k).isSome then a else setA a k v) rest

/-- `config.add_section` guarded by `has_section`, as in `load_config`. -/
def ensureSection (cp : ConfigParser) (sec : String) : ConfigParser :=
  if cp.hasSection sec then cp else cp.addSection sec

/-- The default-injection loop of `load_config` over `DEFAULT_CONFIG`
(one section, `general`). -/
def fillDefaults (cwd : String) (cp : ConfigParser) : ConfigParser :=
  let cp1 := ensureSection cp "general"
  match lookupS cp1.sections "general" with
  | some a => ⟨setS cp1.sections "general" (fillOptions a (DEFAULT_general cwd))⟩
  | Option.none => cp1

/-- `FTPConfigManager.load_config`: create the file with defaults when
absent, read it, inject missing recognized keys in memory, then validate
and (if needed) create the root directory, falling back to the default
working directory when creation fails.  The final `os.makedirs` of the
fallback path is outside any `try`, so its failure propagates
(`Except.error`). -/
def load_config (cwd : String) (cp : ConfigParser) (fs : FS) :
    Except String (ConfigParser × FS) :=
  let start : ConfigParser × FS :=
    match fs.file with
    | Option.none => create_default_config cwd cp fs
    | some _ => (cp, fs)
  let cp2 := start.1.read (start.2.file.getD [])
  let cp3 := fillDefaults cwd cp2
  let root := pvStr (get cwd cp3 "general" "root_path")
  match makedirs start.2 root with
  | .ok fs2 => .ok (cp3, fs2)
  | .error _ =>
    let cp4 :=
      match cp3.set "general" "root_path" cwd with
      | some c => c
      | Option.none => cp3
    match makedirs start.2 cwd with
    | .ok fs2 => .ok (cp4, fs2)
    | .error e => .error e

/-- The update loop of `save` over one section's options: `root_path`
values are routed through `os.path.abspath` (the `ap` parameter) and every
value through `str`; a missing section (`NoSectionError` from
`config.set`) aborts, leaving the updates already applied in place. -/
def applyOptions (ap : String → String) (cp : ConfigParser) (sec : String) :
    List (String × PyIn) → ConfigParser × Bool
  | [] => (cp, true)
  | (key, v) :: rest =>
    let value := if key = "root_path" then ap (pyStr v) else pyStr v
    match cp.set sec key value with
    | some cp1 => applyOptions ap cp1 sec rest
    | Option.none => (cp, false)

/-- The outer update loop of `save` over the settings sections. -/
def applySettings (ap : String → String) (cp : ConfigParser) :
    List (String × List (String × PyIn)) → ConfigParser × Bool
  | [] => (cp, true)
  | (sec, opts) :: rest =>
    match applyOptions ap cp sec opts with
    | (cp1, true) => applySettings ap cp1 rest
    | (cp1, false) => (cp1, false)

/-- `FTPConfigManager.save(settings)`: apply all updates to the in-memory
parser, then validate the port range and the root directory, and only then
write the file.  Any failure is caught and reported as `false`; note the
in-memory parser keeps the already-applied updates on failure. -/
def save (ap : String → String) (cp : ConfigParser) (fs : FS)
    (settings : List (String × List (String × PyIn))) :
    ConfigParser × FS × Bool :=
  match applySettings ap cp settings with
  | (cp1, false) => (cp1, fs, false)
  | (cp1, true) =>
    match cp1.rawGet "general" "port" with
    | Option.none => (cp1, fs, false)
    | some pv =>
      match pyInt pv with
      | Option.none => (cp1, fs, false)
      | some port =>
        if 1 ≤ port ∧ port ≤ 65535 then
          match cp1.rawGet "general" "root_path" with
          | Option.none => (cp1, fs, false)
          | some root =>
            if root ∈ fs.dirs then
              (cp1, { fs with file := some cp1.sections }, true)
            else if fs.creatable root then
              (cp1, { fs with file := some cp1.sections, dirs := root :: fs.dirs }, true)
            else (cp1, fs, false)
        else (cp1, fs, false)

/-- The parser state of a manager freshly loaded from an absent or fully
default config file. -/
def defaultCP (cwd : String) : ConfigParser := ⟨[("general", DEFAULT_general cwd)]⟩

/-! ### WindowsFTPHandler: encoding adaptation -/

/-- Python codec error policy relevant to this program: the `errors`
argument of `bytes.decode` / `str.encode`. -/
inductive ErrPolicy where
  | strict
  | replace
deriving DecidableEq

/-- An external Python codec: a prefix decoder returning the decoded
character and the number of bytes consumed (at least one), and a
per-character encoder.  `Option.none` is an invalid prefix / an
unencodable character. -/
structure Codec where
  decodeOne : List Nat → Option (Char × Nat)
  encodeOne : Char → Option (List Nat)
  decodeOne_pos : ∀ bs c n, decodeOne bs = some (c, n) → 1 ≤ n

/-- U+FFFD, substituted by the `replace` error handler on decoding. -/
def replacementChar : Char := Char.ofNat 0xFFFD

/-- The codec machinery of `bytes.decode(encoding, errors=pol)`: consume
valid prefixes; on an invalid prefix either fail (`strict`, i.e.
`UnicodeDecodeError`) or substitute U+FFFD and skip one byte (`replace`).
Fuel-driven; fuel `bs.length` suffices since each step consumes at least
one byte. -/
def decodeFuel (cdc : Codec) (pol : ErrPolicy) : Nat → List Nat → Option (List Char)
  | _, [] => some []
  | 0, _ :: _ => Option.none
  | fuel + 1, b :: rest =>
    match cdc.decodeOne (b :: rest) with
    | some (c, n) =>
      (decodeFuel cdc pol fuel ((b :: rest).drop n)).map (fun t => c :: t)
    | Option.none =>
      match pol with
      | .strict => Option.none
      | .replace => (decodeFuel cdc pol fuel rest).map (fun t => replacementChar :: t)

/-- `bytes.decode(encoding, errors=pol)`; `Option.none` models an
uncaught `UnicodeDecodeError`. -/
def bytesDecode (cdc : Codec) (pol : ErrPolicy) (bs : List Nat) : Option String :=
  (decodeFuel cdc pol bs.length bs).map (fun l => ⟨l⟩)

/-- `str.encode(encoding, errors=pol)`: encode character by character; on
an unencodable character either fail (`strict`) or substitute the byte of
`?` (`replace`). -/
def encodeChars (cdc : Codec) (pol : ErrPolicy) : List Char → Option (List Nat)
  | [] => some []
  | c :: cs =>
    match cdc.encodeOne c with
    | some bsc => (encodeChars cdc pol cs).map (fun r => bsc ++ r)
    | Option.none =>
      match pol with
      | .strict => Option.none
      | .replace => (encodeChars cdc pol cs).map (fun r => 63 :: r)

/-- `str.encode(encoding, errors=pol)` on a string. -/
def bytesEncode (cdc : Codec) (pol : ErrPolicy) (s : String) : Option (List Nat) :=
  encodeChars cdc pol s.data

/-- The per-instance attributes `WindowsFTPHandler.__init__` sets. -/
structure HandlerInstance where
  encoding : String
  utf8 : Bool
  banner : String
  permit_privileged_ports : Bool
  permit_foreign_addresses : Bool
  unicode_errors : ErrPolicy
deriving DecidableEq

/-- The instance state produced by `WindowsFTPHandler.__init__` (these
assignments run per connection and overwrite any class attributes of the
same name). -/
def handlerInit : HandlerInstance :=
  { encoding := "gb18030", utf8 := false,
    banner := "220 FTP服务器已就绪。",
    permit_privileged_ports := true, permit_foreign_addresses := true,
    unicode_errors := .replace }

/-- `WindowsFTPHandler.decode`: try the configured encoding with the
instance's `unicode_errors` policy; on `UnicodeDecodeError` fall back to
latin1 with the same policy.  `reg` is the codec registry resolving
encoding names. -/
def WindowsFTPHandler.decode (reg : String → Codec) (h : HandlerInstance)
    (bs : List Nat) : Option String :=
  match bytesDecode (reg h.encoding) h.unicode_errors bs with
  | some t => some t
  | Option.none => bytesDecode (reg "latin1") h.unicode_errors bs

/-- `WindowsFTPHandler.encode`: symmetric fallback on
`UnicodeEncodeError`. -/
def WindowsFTPHandler.encode (reg : String → Codec) (h : HandlerInstance)
    (s : String) : Option (List Nat) :=
  match bytesEncode (reg h.encoding) h.unicode_errors s with
  | some r => some r
  | Option.none => bytesEncode (reg "latin1") h.unicode_errors s

/-- A concrete codec instance for evaluating the adapter on inputs:
strict 7-bit ASCII (any byte above 127 is an invalid prefix, any
character above 127 is unencodable). -/
def asciiCodec : Codec where
  decodeOne bs :=
    match bs with
    | [] => Option.none
    | b :: _ => if b ≤ 127 then some (Char.ofNat b, 1) else Option.none
  encodeOne c := if c.toNat ≤ 127 then some [c.toNat] else Option.none
  decodeOne_pos := by
    intro bs c n h
    match bs with
    | [] => simp [Option.noConfusion] at h
    | b :: rest =>
      by_cases hb : b ≤ 127
      · simp only [hb, if_pos] at h
        cases h
        exact Nat.le_refl 1
      · simp [hb] at h

/-- A registry mapping every encoding name to the ASCII model codec. -/
def asciiReg : String → Codec := fun _ => asciiCodec

/-! ### Supervisor: FTPSignals events and the server lifecycle -/

/-- The externally observable events of `FTPSignals` (plus log records
routed through `FTPLogger`, which arrive as `log_received` signals). -/
inductive Event where
  | logLine (msg : String)
  | statusMsg (msg : String)
  | started
  | stopped
  | errorMsg (msg : String)
deriving DecidableEq

/-- The class attributes `_start_server` installs on the handler class
before handing it to the worker thread. -/
structure HandlerClass where
  authRoot : String
  authPerm : String
  timeoutV : PyVal
  encodingV : PyVal
  utf8 : Bool
deriving DecidableEq

/-- The state of one `FTPServerThread`. -/
structure ServerThread where
  wid : Nat
  handler : HandlerClass
  host : String
  portV : PyVal
  max_connections : PyVal
  hasServer : Bool
  runningFlag : Bool
  alive : Bool
deriving DecidableEq

/-- The supervisor-visible state of `FTPMainWindow`: the current thread
reference, every thread object the reference was moved away from, whether
the UI shows the running state, the emitted events and a fresh-id
counter. -/
structure Sup where
  server_thread : Option ServerThread
  retired : List ServerThread
  uiRunning : Bool
  events : List Event
  nextId : Nat
deriving DecidableEq

/-- `self.server_thread and self.server_thread.isRunning()`. -/
def supRunning (s : Sup) : Bool :=
  match s.server_thread with
  | some w => w.alive
  | Option.none => false

def initSup : Sup :=
  { server_thread := Option.none, retired := [], uiRunning := false,
    events := [], nextId := 0 }

/-- Message of the `except` branch of `_start_server`. -/
def startFailMsg : String := "启动服务器失败: ValueError"

/-- `FTPMainWindow._start_server`.  `DummyAuthorizer.add_anonymous`
validates the home directory and raises `ValueError` when it does not
exist; that exception is caught by the surrounding `try`, which logs,
emits `error_occurred` and calls `_update_ui_state(False)`.  On the
success path the thread is created and started, `server_started` and a
status message are emitted, and the start is logged. -/
def start_server (cwd : String) (cp : ConfigParser) (fs : FS) (s : Sup) : Sup :=
  let root := pvStr (get cwd cp "general" "root_path")
  if root ∈ fs.dirs then
    let portV := get cwd cp "general" "port"
    let handler : HandlerClass :=
      { authRoot := root, authPerm := "elradfmwM",
        timeoutV := get cwd cp "general" "timeout",
        encodingV := get cwd cp "general" "encoding",
        utf8 := strLower (pvStr (get cwd cp "general" "encoding")) == "utf-8" }
    let w : ServerThread :=
      { wid := s.nextId, handler := handler, host := "0.0.0.0", portV := portV,
        max_connections := get cwd cp "general" "max_connections",
        hasServer := false, runningFlag := false, alive := true }
    let msg := "服务器已在端口 " ++ pvStr portV ++ " 启动"
    { server_thread := some w,
      retired :=
        (match s.server_thread with
         | some old => old :: s.retired
         | Option.none => s.retired),
      uiRunning := true,
      events := s.events ++ [.started, .statusMsg msg, .logLine msg],
      nextId := s.nextId + 1 }
  else
    { s with
      events := s.events ++ [.logLine startFailMsg, .errorMsg startFailMsg],
      uiRunning := false }

/-- `FTPServerThread.run` up to the point where `serve_forever` blocks
(bind succeeded), or to completion when binding raises: the exception is
only logged (`logging.error`, reaching the GUI as a `log_received`
signal), `_running` is cleared in the `finally`, and the thread
terminates. -/
def threadRunBind (bindOk : Bool) (w : ServerThread) : ServerThread × List Event :=
  if bindOk then
    ({ w with hasServer := true, runningFlag := true }, [])
  else
    ({ w with alive := false, runningFlag := false },
     [.logLine "服务器错误: OSError"])

/-- `FTPServerThread.run` returning after `serve_forever` exits: the
`finally` clears `_running` and the thread dies. -/
def threadServeExit (w : ServerThread) : ServerThread :=
  { w with runningFlag := false, alive := false }

/-- `FTPServerThread.stop`: `close_all` and clear `_running`, but only
when a server was created and is running. -/
def threadStop (w : ServerThread) : ServerThread :=
  if w.hasServer ∧ w.runningFlag then { w with runningFlag := false } else w

/-- `FTPMainWindow._stop_server`: no-op without a thread reference;
otherwise stop the worker, `quit()`, `wait(2000)` (the result of the
bounded wait is ignored: `terminates` says whether the worker exited
within the bound), then unconditionally emit `server_stopped`, a status
message, and log the stop. -/
def stop_server (terminates : Bool) (s : Sup) : Sup :=
  match s.server_thread with
  | Option.none => s
  | some w =>
    let w1 := threadStop w
    let w2 := if terminates then { w1 with alive := false, runningFlag := false } else w1
    { s with
      server_thread := some w2,
      uiRunning := false,
      events := s.events ++
        [.stopped, .statusMsg "服务器已停止", .logLine "服务器已停止"] }

/-- `FTPMainWindow._toggle_server`. -/
def toggle_server (cwd : String) (cp : ConfigParser) (fs : FS)
    (terminates : Bool) (s : Sup) : Sup :=
  if supRunning s then stop_server terminates s else start_server cwd cp fs s

/-- Requests and scheduler events driving the supervisor: a toggle from
the button or tray, a direct stop (window close / application exit), the
worker's bind failing or a serving crash (`workerError`), the bind
completing (`bindDone`), and the worker unwinding after `close_all`
(`serveExit`). -/
inductive Act where
  | toggle (terminates : Bool)
  | stopReq (terminates : Bool)
  | workerError
  | bindDone
  | serveExit
deriving DecidableEq

/-- Apply a worker-side transition to the current thread, when it is
still alive. -/
def onWorker (f : ServerThread → ServerThread × List Event) (s : Sup) : Sup :=
  match s.server_thread with
  | some w =>
    if w.alive then
      let r := f w
      { s with
        server_thread := some r.1,
        events := s.events ++ r.2 }
    else s
  | Option.none => s

/-- One supervisor step under a fixed configuration. -/
def step (cwd : String) (cp : ConfigParser) (fs : FS) (s : Sup) : Act → Sup
  | .toggle t => toggle_server cwd cp fs t s
  | .stopReq t => stop_server t s
  | .workerError => onWorker (threadRunBind false) s
  | .bindDone => onWorker (fun w => ((threadRunBind true w).1, [])) s
  | .serveExit => onWorker (fun w => (threadServeExit w, [])) s

/-- Run a request/scheduler trace from a state. -/
def runTrace (cwd : String) (cp : ConfigParser) (fs : FS) (s : Sup) :
    List Act → Sup
  | [] => s
  | a :: rest => runTrace cwd cp fs (step cwd cp fs s a) rest

/-- Number of concurrently active worker threads (current and retired). -/
def activeCount (s : Sup) : Nat :=
  ((match s.server_thread with
    | some w => [w]
    | Option.none => []) ++ s.retired).countP (fun w => w.alive)

/-- Whether an event is an `error_occurred` emission. -/
def isErrorEv : Event → Bool
  | .errorMsg _ => true
  | _ => false

/-- Does the persisted config file contain the given option? -/
def fileHasOption (fs : FS) (sec key : String) : Bool :=
  match fs.file with
  | some secs => ((lookupS secs sec).bind (fun a => lookupA a key)).isSome
  | Option.none => false

/-- Projection of a successful `load_config`. -/
def exOk : Except String (ConfigParser × FS) → Option (ConfigParser × FS)
  | .ok r => some r
  | .error _ => Option.none

/-- A concrete environment for evaluating the supervisor: default config,
config file present, working directory `/app` existing, nothing else
creatable. -/
def fsA : FS :=
  { file := some (defaultCP "/app").sections, dirs := ["/app"],
    creatable := fun _ => false }

/-- A concrete config file whose `general` section lacks the `timeout`
key (all other recognized keys present). -/
def l0 : Assoc :=
  [("port", "2121"), ("root_path", "/app"), ("max_connections", "50"),
   ("encoding", "gb18030"), ("log_level", "INFO"), ("save_log", "False")]

/-- File system holding `l0` as the persisted config. -/
def fsC6 : FS :=
  { file := some [("general", l0)], dirs := ["/app"], creatable := fun _ => true }

/-- Every thread object the supervisor's reference was moved away from is
no longer running. -/
def retiredDead (s : Sup) : Prop := ∀ w ∈ s.retired, w.alive = false

/-- A file-system state in which the configured root directory does not
exist and cannot be created. -/
def fsB : FS := { file := Option.none, dirs := [], creatable := fun _ => false }

/-- A concrete worker thread state: just started, not yet bound. -/
def wW : ServerThread :=
  { wid := 0,
    handler := { authRoot := "/app", authPerm := "elradfmwM",
                 timeoutV := PyVal.i 300, encodingV := PyVal.s "gb18030",
                 utf8 := false },
    host := "0.0.0.0", portV := PyVal.i 21, max_connections := PyVal.i 50,
    hasServer := false, runningFlag := false, alive := true }

/-- A concrete supervisor state holding the live worker `wW`. -/
def sW : Sup :=
  { server_thread := some wW, retired := [], uiRunning := true,
    events := [], nextId := 1 }

/-- The supervisor state after a start request whose worker has bound
successfully (used to exercise a second request while Running). -/
def sToggle : Sup :=
  runTrace "/app" (defaultCP "/app") fsA initSup [Act.toggle true, Act.bindDone]

/-- The settings mapping `_save_settings` builds (all recognized keys of
the `general` section), with `root_path` as saved by `_select_root_dir`. -/
def roundSettings (port maxc tmo : Int) (enc lvl root : String) (sl : Bool) :
    List (String × List (String × PyIn)) :=
  [("general",
    [("port", PyIn.i port), ("root_path", PyIn.s root),
     ("max_connections", PyIn.i maxc), ("timeout", PyIn.i tmo),
     ("encoding", PyIn.s enc), ("log_level", PyIn.s lvl),
     ("save_log", PyIn.b sl)])]

/-- The `general` section contents after `save` applies the updates of
`roundSettings` (in settings order, with `root_path` already sent through
`os.path.abspath`). -/
def roundAssoc (g : Assoc) (port maxc tmo : Int) (enc lvl root : String)
    (sl : Bool) : Assoc :=
  setA (setA (setA (setA (setA (setA (setA g
    "port" (intToStr port))
    "root_path" root)
    "max_connections" (intToStr maxc))
    "timeout" (intToStr tmo))
    "encoding" enc)
    "log_level" lvl)
    "save_log" (pyStr (PyIn.b sl))

/-! ## Lemmas: association lists -/

theorem lookupP_setP {α : Type} (a : List (String × α)) (k k' : String) (v : α) :
    lookupP (setP a k v) k' = if k = k' then some v else lookupP a k' := by
  induction a with
  | nil => simp [setP, lookupP]
  | cons hd tl ih =>
    obtain ⟨k1, v1⟩ := hd
    by_cases h1 : k1 = k
    · subst h1
      by_cases h2 : k1 = k'
      · subst h2; simp [setP, lookupP]
      · simp [setP, lookupP, h2]
    · by_cases h2 : k1 = k'
      · subst h2
        have hk : k ≠ k1 := fun h => h1 h.symm
        simp [setP, lookupP, h1, hk]
      · simp [setP, lookupP, h1, h2, ih]

/-! ## Lemmas: decimal printing and parsing round-trip -/

theorem digitVal_digitChar {d : Nat} (h : d < 10) :
    digitVal (digitChar d) = some d := by
  interval_cases d <;> decide

theorem parseDigitsFold_append (xs ys : List Char) (acc : Nat) :
    parseDigitsFold acc (xs ++ ys) =
      match parseDigitsFold acc xs with
      | some m => parseDigitsFold m ys
      | Option.none => Option.none := by
  induction xs generalizing acc with
  | nil => simp [parseDigitsFold]
  | cons c cs ih =>
    simp only [List.cons_append, parseDigitsFold]
    cases digitVal c with
    | none => rfl
    | some d => exact ih (acc * 10 + d)

theorem natDigitsAux_ne_nil {fuel n : Nat} (h : 0 < fuel) :
    natDigitsAux fuel n ≠ [] := by
  match fuel, h with
  | f + 1, _ =>
    by_cases h10 : n < 10
    · simp [natDigitsAux, h10]
    · simp [natDigitsAux, h10]

theorem parseFold_natDigitsAux :
    ∀ fuel n acc, n < fuel →
      parseDigitsFold acc (natDigitsAux fuel n) =
        some (acc * 10 ^ (natDigitsAux fuel n).length + n) := by
  intro fuel
  induction fuel with
  | zero => intro n acc h; omega
  | succ f ih =>
    intro n acc h
    by_cases h10 : n < 10
    · have hd := digitVal_digitChar h10
      simp [natDigitsAux, h10, parseDigitsFold, hd]
    · have hlt : n / 10 < f := by
        have h1 : n / 10 < n := Nat.div_lt_self (by omega) (by omega)
        omega
      have hrec := ih (n / 10) acc hlt
      have hmod : n % 10 < 10 := Nat.mod_lt _ (by omega)
      have hd := digitVal_digitChar hmod
      simp only [natDigitsAux, h10, if_false, ite_false]
      rw [parseDigitsFold_append]
      rw [hrec]
      simp only [parseDigitsFold, hd]
      rw [List.length_append]
      simp only [List.length_singleton]
      congr 1
      have hdm := Nat.div_add_mod n 10
      ring_nf
      omega

theorem natDigitsAux_head :
    ∀ fuel n, n < fuel →
      ∃ d t, d < 10 ∧ natDigitsAux fuel n = digitChar d :: t := by
  intro fuel
  induction fuel with
  | zero => intro n h; omega
  | succ f ih =>
    intro n h
    by_cases h10 : n < 10
    · exact ⟨n, [], h10, by simp [natDigitsAux, h10]⟩
    · have hlt : n / 10 < f := by
        have h1 : n / 10 < n := Nat.div_lt_self (by omega) (by omega)
        omega
      obtain ⟨d, t, hdlt, heq⟩ := ih (n / 10) hlt
      refine ⟨d, t ++ [digitChar (n % 10)], hdlt, ?_⟩
      simp [natDigitsAux, h10, heq]

theorem parseDigits_natToStr (n : Nat) :
    parseDigits (natToStr n).data = some n := by
  have hne : natDigitsAux (n + 1) n ≠ [] := natDigitsAux_ne_nil (Nat.succ_pos n)
  have hp := parseFold_natDigitsAux (n + 1) n 0 (Nat.lt_succ_self n)
  simp only [natToStr]
  match hmm : natDigitsAux (n + 1) n with
  | [] => exact absurd hmm hne
  | c :: cs =>
    simp only [parseDigits]
    rw [← hmm, hp]
    simp

theorem pyInt_natToStr (n : Nat) : pyInt (natToStr n) = some (n : Int) := by
  obtain ⟨d, t, hdlt, heq⟩ := natDigitsAux_head (n + 1) n (Nat.lt_succ_self n)
  have hdig := digitVal_digitChar hdlt
  have hminus : digitChar d ≠ '-' := by
    intro h
    rw [h] at hdig
    simp [digitVal] at hdig
  have hplus : digitChar d ≠ '+' := by
    intro h
    rw [h] at hdig
    simp [digitVal] at hdig
  have hdata : (natToStr n).data = digitChar d :: t := by
    simp only [natToStr]; exact heq
  have hparse := parseDigits_natToStr n
  rw [hdata] at hparse
  unfold pyInt
  rw [hdata]
  split
  · rename_i heq2
    exact absurd (List.head_eq_of_cons_eq heq2.symm).symm hminus
  · rename_i heq2
    exact absurd (List.head_eq_of_cons_eq heq2.symm).symm hplus
  · rw [hparse]; rfl

theorem pyInt_intToStr (i : Int) : pyInt (intToStr i) = some i := by
  cases i with
  | ofNat n => exact pyInt_natToStr n
  | negSucc n =>
    have hdata : (intToStr (Int.negSucc n)).data = '-' :: (natToStr (n + 1)).data := by
      show (("-" : String) ++ natToStr (n + 1)).data = _
      simp [String.data_append]
    have hparse := parseDigits_natToStr (n + 1)
    unfold pyInt
    rw [hdata]
    simp only [hparse, Option.map_some]
    congr 1

/-! ## Lemmas: the default-injection loop of load_config -/

theorem lookupA_setA (a : Assoc) (k k' v : String) :
    lookupA (setA a k v) k' = if k = k' then some v else lookupA a k' :=
  lookupP_setP a k k' v

theorem lookupS_setS (ss : Sections) (k k' : String) (v : Assoc) :
    lookupS (setS ss k v) k' = if k = k' then some v else lookupS ss k' :=
  lookupP_setP ss k k' v

theorem fillOptions_preserves (ds : List (String × String)) (a : Assoc)
    (k v : String) (h : lookupA a k = some v) :
    lookupA (fillOptions a ds) k = some v := by
  induction ds generalizing a with
  | nil => simpa [fillOptions] using h
  | cons d rest ih =>
    obtain ⟨kd, vd⟩ := d
    simp only [fillOptions]
    by_cases hc : (lookupA a kd).isSome
    · rw [if_pos hc]; exact ih a h
    · rw [if_neg hc]
      apply ih
      rw [lookupA_setA]
      have hne : kd ≠ k := by
        intro he
        subst he
        rw [h] at hc
        simp at hc
      rw [if_neg hne]
      exact h

theorem fillOptions_allPresent (ds : List (String × String)) (a : Assoc)
    (h : ∀ p ∈ ds, (lookupA a p.1).isSome = true) :
    fillOptions a ds = a := by
  induction ds with
  | nil => rfl
  | cons d rest ih =>
    obtain ⟨kd, vd⟩ := d
    simp only [fillOptions]
    rw [if_pos (h (kd, vd) (List.mem_cons_self _ _))]
    exact ih fun p hp => h p (List.mem_cons_of_mem _ hp)

theorem lookupA_fillStep_none (a : Assoc) (kd vd k : String) (hne : kd ≠ k)
    (h : lookupA a k = Option.none) :
    lookupA (if (lookupA a kd).isSome then a else setA a kd vd) k = Option.none := by
  split
  · exact h
  · rw [lookupA_setA, if_neg hne]; exact h

theorem fillOptions_inserts (k v : String) :
    ∀ (ds : List (String × String)) (a : Assoc),
      (ds.map Prod.fst).Nodup → (k, v) ∈ ds → lookupA a k = Option.none →
      lookupA (fillOptions a ds) k = some v := by
  intro ds
  induction ds with
  | nil => intro a _ hmem _; simp at hmem
  | cons d rest ih =>
    obtain ⟨kd, vd⟩ := d
    intro a hnd hmem h
    rcases List.mem_cons.mp hmem with hhd | htl
    · obtain ⟨hk, hv⟩ := Prod.mk.injEq .. ▸ hhd
      subst hk; subst hv
      simp only [fillOptions]
      have hc : (lookupA a k).isSome = false := by rw [h]; rfl
      rw [hc]
      simp only [Bool.false_eq_true, if_false]
      exact fillOptions_preserves rest _ k v (by rw [lookupA_setA, if_pos rfl])
    · have hkd : kd ≠ k := by
        intro he
        subst he
        have : kd ∈ rest.map Prod.fst := List.mem_map.mpr ⟨(kd, v), htl, rfl⟩
        simp only [List.map_cons, List.nodup_cons] at hnd
        exact hnd.1 this
      simp only [fillOptions]
      exact ih _ (by simpa using (List.map_cons Prod.fst (kd, vd) rest ▸ hnd).tail)
        htl (lookupA_fillStep_none a kd vd k hkd h)

/-! ## Lemmas: load_config on a present file with a single general section -/

theorem read_empty_single (A : Assoc) :
    ConfigParser.read ⟨[]⟩ [("general", A)] = ⟨[("general", A)]⟩ := by
  simp [ConfigParser.read, mergeSection, lookupP]

theorem fillDefaults_single (cwd : String) (A : Assoc) :
    fillDefaults cwd ⟨[("general", A)]⟩ =
      ⟨[("general", fillOptions A (DEFAULT_general cwd))]⟩ := by
  simp [fillDefaults, ensureSection, ConfigParser.hasSection, lookupP, setP]

theorem get_string_key (cwd : String) (cp : ConfigParser) (key : String)
    (hkey : key = "root_path" ∨ key = "encoding" ∨ key = "log_level")
    (v : String) (hv : cp.rawGet "general" key = some v) :
    get cwd cp "general" key = PyVal.s v := by
  rcases hkey with h | h | h <;> subst h <;> simp [get, hv]

theorem load_config_allPresent (cwd : String) (A : Assoc) (fs : FS) (root : String)
    (hfile : fs.file = some [("general", A)])
    (hall : ∀ p ∈ DEFAULT_general cwd, (lookupA A p.1).isSome = true)
    (hroot : lookupA A "root_path" = some root)
    (hdir : root ∈ fs.dirs) :
    load_config cwd ⟨[]⟩ fs = .ok (⟨[("general", A)]⟩, fs) := by
  have hraw : ConfigParser.rawGet ⟨[("general", A)]⟩ "general" "root_path" = some root := by
    simp [ConfigParser.rawGet, lookupP, hroot]
  have hget := get_string_key cwd ⟨[("general", A)]⟩ "root_path" (Or.inl rfl) root hraw
  unfold load_config
  simp only [hfile, Option.getD_some, read_empty_single, fillDefaults_single,
    fillOptions_allPresent (DEFAULT_general cwd) A hall]
  rw [hget]
  simp only [pvStr]
  unfold makedirs
  rw [if_pos hdir]

/-! ## Lemmas: totality of the replace error policy -/

theorem decodeFuel_replace_isSome (cdc : Codec) :
    ∀ fuel bs, bs.length ≤ fuel →
      (decodeFuel cdc .replace fuel bs).isSome = true := by
  intro fuel
  induction fuel with
  | zero =>
    intro bs h
    cases bs with
    | nil => simp [decodeFuel]
    | cons b rest => simp at h
  | succ f ih =>
    intro bs h
    cases bs with
    | nil => simp [decodeFuel]
    | cons b rest =>
      simp only [decodeFuel]
      cases hd : cdc.decodeOne (b :: rest) with
      | none =>
        have hrest : rest.length ≤ f := by
          simp only [List.length_cons] at h; omega
        simp [ih rest hrest]
      | some cn =>
        obtain ⟨c, n⟩ := cn
        have hn := cdc.decodeOne_pos _ c n hd
        have hlen : ((b :: rest).drop n).length ≤ f := by
          rw [List.length_drop]
          simp only [List.length_cons] at h ⊢
          omega
        simp [ih _ hlen]

theorem bytesDecode_replace_isSome (cdc : Codec) (bs : List Nat) :
    (bytesDecode cdc .replace bs).isSome = true := by
  unfold bytesDecode
  simp [decodeFuel_replace_isSome cdc bs.length bs (le_refl _)]

theorem encodeChars_replace_isSome (cdc : Codec) :
    ∀ cs : List Char, (encodeChars cdc .replace cs).isSome = true := by
  intro cs
  induction cs with
  | nil => simp [encodeChars]
  | cons c rest ih =>
    simp only [encodeChars]
    cases cdc.encodeOne c with
    | none => simp [ih]
    | some bsc => simp [ih]

theorem bytesEncode_replace_isSome (cdc : Codec) (s : String) :
    (bytesEncode cdc .replace s).isSome = true :=
  encodeChars_replace_isSome cdc s.data

/-! ## Lemmas: the supervisor keeps at most one live worker -/

theorem supRunning_false_dead (s : Sup) (h : supRunning s = false) :
    ∀ w, s.server_thread = some w → w.alive = false := by
  intro w hw
  unfold supRunning at h
  rw [hw] at h
  exact h

theorem start_server_retired (cwd : String) (cp : ConfigParser) (fs : FS) (s : Sup)
    (hcur : ∀ w, s.server_thread = some w → w.alive = false)
    (hr : retiredDead s) : retiredDead (start_server cwd cp fs s) := by
  unfold retiredDead
  intro w hw
  by_cases hdir2 : pvStr (get cwd cp "general" "root_path") ∈ fs.dirs
  · cases hst : s.server_thread with
    | none =>
      simp only [start_server, hst, if_pos hdir2] at hw
      exact hr w hw
    | some old =>
      simp only [start_server, hst, if_pos hdir2, List.mem_cons] at hw
      rcases hw with rfl | hmem
      · exact hcur w hst
      · exact hr w hmem
  · simp only [start_server, if_neg hdir2] at hw
    exact hr w hw

theorem stop_server_retired (t : Bool) (s : Sup) (hr : retiredDead s) :
    retiredDead (stop_server t s) := by
  unfold stop_server
  cases s.server_thread with
  | none => exact hr
  | some w => exact fun w' hw' => hr w' hw'

theorem onWorker_retired (f : ServerThread → ServerThread × List Event) (s : Sup)
    (hr : retiredDead s) : retiredDead (onWorker f s) := by
  unfold retiredDead
  intro w' hw'
  cases hst : s.server_thread with
  | none =>
    simp only [onWorker, hst] at hw'
    exact hr w' hw'
  | some w =>
    by_cases ha : w.alive = true
    · simp only [onWorker, hst, if_pos ha] at hw'
      exact hr w' hw'
    · simp only [onWorker, hst, if_neg ha] at hw'
      exact hr w' hw'

theorem step_retired (cwd : String) (cp : ConfigParser) (fs : FS) (s : Sup) (a : Act)
    (hr : retiredDead s) : retiredDead (step cwd cp fs s a) := by
  cases a with
  | toggle t =>
    show retiredDead (toggle_server cwd cp fs t s)
    unfold toggle_server
    cases hrun : supRunning s with
    | true => simpa [hrun] using stop_server_retired t s hr
    | false =>
      simpa [hrun] using
        start_server_retired cwd cp fs s (supRunning_false_dead s hrun) hr
  | stopReq t => exact stop_server_retired t s hr
  | workerError => exact onWorker_retired _ s hr
  | bindDone => exact onWorker_retired _ s hr
  | serveExit => exact onWorker_retired _ s hr

theorem runTrace_retired (cwd : String) (cp : ConfigParser) (fs : FS) :
    ∀ (tr : List Act) (s : Sup), retiredDead s →
      retiredDead (runTrace cwd cp fs s tr) := by
  intro tr
  induction tr with
  | nil => exact fun s hr => hr
  | cons a rest ih =>
    intro s hr
    exact ih (step cwd cp fs s a) (step_retired cwd cp fs s a hr)

theorem retiredDead_activeCount (s : Sup) (hr : retiredDead s) :
    activeCount s ≤ 1 := by
  unfold activeCount
  rw [List.countP_append]
  have h2 : s.retired.countP (fun w => w.alive) = 0 :=
    List.countP_eq_zero.mpr (fun w hw => by rw [hr w hw]; simp)
  rw [h2]
  cases s.server_thread with
  | none => simp
  | some w =>
    have := List.countP_le_length (l := [w]) (p := fun w => w.alive)
    simpa using this

/-! ## Lemmas: raw and typed reads on a single-section parser -/

theorem rawGet_single (A : Assoc) (k : String) :
    ConfigParser.rawGet ⟨[("general", A)]⟩ "general" k = lookupA A k := by
  simp [ConfigParser.rawGet, lookupP]

theorem pyBool_pyStr_bool (b : Bool) : pyBool (pyStr (PyIn.b b)) = some b := by
  cases b <;> decide

theorem get_int_key (cwd : String) (cp : ConfigParser) (key : String)
    (hkey : key = "port" ∨ key = "max_connections" ∨ key = "timeout")
    (v : String) (n : Int) (hv : cp.rawGet "general" key = some v)
    (hn : pyInt v = some n) :
    get cwd cp "general" key = PyVal.i n := by
  rcases hkey with h | h | h <;> subst h <;> simp [get, hv, hn]

theorem get_bool_key (cwd : String) (cp : ConfigParser)
    (v : String) (b : Bool) (hv : cp.rawGet "general" "save_log" = some v)
    (hb : pyBool v = some b) :
    get cwd cp "general" "save_log" = PyVal.b b := by
  simp [get, hv, hb]

/-! ## Claim C2 -/

/-- Any failing `save` leaves the file-system state (persisted file and
directories) exactly as it was: the only write sits on the full-success
path. -/
theorem save_false_fs (ap : String → String) (cp : ConfigParser) (fs : FS)
    (settings : List (String × List (String × PyIn))) :
    (save ap cp fs settings).2.2 = false → (save ap cp fs settings).2.1 = fs := by
  unfold save
  split
  · exact fun _ => rfl
  · split
    · exact fun _ => rfl
    · split
      · exact fun _ => rfl
      · split
        · split
          · exact fun _ => rfl
          · split
            · intro h; simp at h
            · split
              · intro h; simp at h
              · exact fun _ => rfl
        · exact fun _ => rfl

/-- The in-memory parser returned by `save` is always the one produced by
applying the settings updates — validation failure performs no rollback. -/
theorem save_keeps_applied (ap : String → String) (cp : ConfigParser) (fs : FS)
    (settings : List (String × List (String × PyIn))) :
    (save ap cp fs settings).1 = (applySettings ap cp settings).1 := by
  unfold save
  split
  · rename_i cp1 heq
    rw [heq]
  · rename_i cp1 heq
    rw [heq]
    split
    · rfl
    · split
      · rfl
      · split
        · split
          · rfl
          · split
            · rfl
            · split
              · rfl
              · rfl
        · rfl

/-- Claim C2, amended: for every settings mapping whose validation fails
— a port outside 1–65535 stored by the updates, or a `root_path` whose
directory neither exists nor can be created — `save` returns `False`
without raising past its boundary and the previously persisted file (the
whole file-system state) is unchanged; but the previous in-memory
configuration is NOT retained: the updates were applied before
validation and are not rolled back, so a subsequent `get` observes the
rejected port (resp. the rejected root path) as the current config. -/
theorem save_validation_failure_not_rolled_back
    (ap : String → String) (cwd : String) (cp : ConfigParser) (fs : FS)
    (settings : List (String × List (String × PyIn))) :
    ((save ap cp fs settings).2.2 = false → (save ap cp fs settings).2.1 = fs) ∧
    ((save ap cp fs settings).1 = (applySettings ap cp settings).1) ∧
    (∀ v p, (applySettings ap cp settings).2 = true →
      (applySettings ap cp settings).1.rawGet "general" "port" = some v →
      pyInt v = some p → ¬(1 ≤ p ∧ p ≤ 65535) →
      (save ap cp fs settings).2.2 = false ∧
      get cwd (save ap cp fs settings).1 "general" "port" = PyVal.i p) ∧
    (∀ v p root, (applySettings ap cp settings).2 = true →
      (applySettings ap cp settings).1.rawGet "general" "port" = some v →
      pyInt v = some p → (1 ≤ p ∧ p ≤ 65535) →
      (applySettings ap cp settings).1.rawGet "general" "root_path" = some root →
      root ∉ fs.dirs → fs.creatable root = false →
      (save ap cp fs settings).2.2 = false ∧
      get cwd (save ap cp fs settings).1 "general" "root_path" = PyVal.s root) := by
  refine ⟨save_false_fs ap cp fs settings, save_keeps_applied ap cp fs settings,
    ?_, ?_⟩
  · intro v p htrue hv hp hrange
    rcases happ : applySettings ap cp settings with ⟨cp1, b⟩
    rw [happ] at htrue hv
    simp only at htrue hv
    subst htrue
    have hsave : save ap cp fs settings = (cp1, fs, false) := by
      unfold save
      rw [happ]
      simp only [hv, hp]
      rw [if_neg hrange]
    rw [hsave]
    exact ⟨rfl, get_int_key cwd cp1 "port" (Or.inl rfl) v p hv hp⟩
  · intro v p root htrue hv hp hrange hroot hmem hcr
    rcases happ : applySettings ap cp settings with ⟨cp1, b⟩
    rw [happ] at htrue hv hroot
    simp only at htrue hv hroot
    subst htrue
    have hsave : save ap cp fs settings = (cp1, fs, false) := by
      unfold save
      rw [happ]
      simp only [hv, hp]
      rw [if_pos hrange]
      simp only [hroot]
      rw [if_neg hmem, if_neg (by simp [hcr])]
    rw [hsave]
    exact ⟨rfl, get_string_key cwd cp1 "root_path" (Or.inl rfl) root hroot⟩

/-- Witness for the C2 theorem on two concrete failing saves: the full
`_save_settings`-shaped mapping with the rejected port 70000, and a
mapping with a valid port but an uncreatable `root_path`; in both cases
`save` fails and `get` observes the rejected value. -/
theorem save_validation_failure_witness :
    ((applySettings (fun q => q) (defaultCP "/app")
        (roundSettings 70000 50 300 "gb18030" "INFO" "/app" false)).2 = true) ∧
    ((save (fun q => q) (defaultCP "/app") fsA
        (roundSettings 70000 50 300 "gb18030" "INFO" "/app" false)).2.2 = false ∧
     get "/app" (save (fun q => q) (defaultCP "/app") fsA
        (roundSettings 70000 50 300 "gb18030" "INFO" "/app" false)).1
       "general" "port" = PyVal.i 70000) ∧
    ((save (fun q => q) (defaultCP "/app") fsA
        [("general", [("port", PyIn.i 21), ("root_path", PyIn.s "/nope")])]).2.2 =
       false ∧
     get "/app" (save (fun q => q) (defaultCP "/app") fsA
        [("general", [("port", PyIn.i 21), ("root_path", PyIn.s "/nope")])]).1
       "general" "root_path" = PyVal.s "/nope") :=
  ⟨by decide,
   (save_validation_failure_not_rolled_back (fun q => q) "/app" (defaultCP "/app")
      fsA (roundSettings 70000 50 300 "gb18030" "INFO" "/app" false)).2.2.1
     "70000" 70000 (by decide) (by decide) (by decide) (by decide),
   (save_validation_failure_not_rolled_back (fun q => q) "/app" (defaultCP "/app")
      fsA [("general", [("port", PyIn.i 21), ("root_path", PyIn.s "/nope")])]).2.2.2
     "21" 21 "/nope" (by decide) (by decide) (by decide) (by decide) (by decide)
     (by decide) (by decide)⟩

/-- Claim C2 as stated is false at a concrete input: before the failed
save the current port is 21; `save` with port 70000 returns `False` (and
the file is untouched), yet afterwards `get` reports 70000 as the current
port — the caller does observe the rejected value. -/
theorem save_invalid_port_counterexample :
    get "/app" (defaultCP "/app") "general" "port" = PyVal.i 21 ∧
    (save (fun q => q) (defaultCP "/app") fsA
      [("general", [("port", PyIn.i 70000)])]).2.2 = false ∧
    (save (fun q => q) (defaultCP "/app") fsA
      [("general", [("port", PyIn.i 70000)])]).2.1.file = fsA.file ∧
    get "/app" (save (fun q => q) (defaultCP "/app") fsA
      [("general", [("port", PyIn.i 70000)])]).1 "general" "port" = PyVal.i 70000 := by
  decide

/-! ## Claim C8 -/

/-- Claim C8, amended: for recognized keys `get` returns the schema-typed
value when the stored string parses, but on a parse failure it returns
whatever string sits in `DEFAULT_CONFIG` (the raw default, e.g. `"21"`),
NOT a value of the declared type; string-typed keys are returned
verbatim. -/
theorem get_typed_value_or_raw_string_default (cwd : String) (cp : ConfigParser) :
    (∀ v n, cp.rawGet "general" "port" = some v → pyInt v = some n →
      get cwd cp "general" "port" = PyVal.i n) ∧
    (∀ v, cp.rawGet "general" "port" = some v → pyInt v = Option.none →
      get cwd cp "general" "port" = PyVal.s "21") ∧
    (∀ v n, cp.rawGet "general" "max_connections" = some v → pyInt v = some n →
      get cwd cp "general" "max_connections" = PyVal.i n) ∧
    (∀ v, cp.rawGet "general" "max_connections" = some v → pyInt v = Option.none →
      get cwd cp "general" "max_connections" = PyVal.s "50") ∧
    (∀ v n, cp.rawGet "general" "timeout" = some v → pyInt v = some n →
      get cwd cp "general" "timeout" = PyVal.i n) ∧
    (∀ v, cp.rawGet "general" "timeout" = some v → pyInt v = Option.none →
      get cwd cp "general" "timeout" = PyVal.s "300") ∧
    (∀ v b, cp.rawGet "general" "save_log" = some v → pyBool v = some b →
      get cwd cp "general" "save_log" = PyVal.b b) ∧
    (∀ v, cp.rawGet "general" "save_log" = some v → pyBool v = Option.none →
      get cwd cp "general" "save_log" = PyVal.s "False") ∧
    (∀ v, cp.rawGet "general" "encoding" = some v →
      get cwd cp "general" "encoding" = PyVal.s v) ∧
    (∀ v, cp.rawGet "general" "log_level" = some v →
      get cwd cp "general" "log_level" = PyVal.s v) ∧
    (∀ v, cp.rawGet "general" "root_path" = some v →
      get cwd cp "general" "root_path" = PyVal.s v) := by
  refine ⟨?_, ?_, ?_, ?_, ?_, ?_, ?_, ?_, ?_, ?_, ?_⟩
  · exact fun v n hv hn => get_int_key cwd cp "port" (Or.inl rfl) v n hv hn
  · intro v hv hn
    simp +decide [get, hv, hn, DEFAULT_lookup, DEFAULT_general, lookupP]
  · exact fun v n hv hn => get_int_key cwd cp "max_connections" (Or.inr (Or.inl rfl)) v n hv hn
  · intro v hv hn
    simp +decide [get, hv, hn, DEFAULT_lookup, DEFAULT_general, lookupP]
  · exact fun v n hv hn => get_int_key cwd cp "timeout" (Or.inr (Or.inr rfl)) v n hv hn
  · intro v hv hn
    simp +decide [get, hv, hn, DEFAULT_lookup, DEFAULT_general, lookupP]
  · exact fun v b hv hb => get_bool_key cwd cp v b hv hb
  · intro v hv hb
    simp +decide [get, hv, hb, DEFAULT_lookup, DEFAULT_general, lookupP]
  · exact fun v hv => get_string_key cwd cp "encoding" (Or.inr (Or.inl rfl)) v hv
  · exact fun v hv => get_string_key cwd cp "log_level" (Or.inr (Or.inr rfl)) v hv
  · exact fun v hv => get_string_key cwd cp "root_path" (Or.inl rfl) v hv

/-- Witness for the C8 theorem: a stored port `"2121"` parses and is
returned as the integer 2121. -/
theorem get_typed_value_witness :
    (⟨[("general", [("port", "2121")])]⟩ : ConfigParser).rawGet "general" "port" =
      some "2121" ∧
    pyInt "2121" = some 2121 ∧
    get "/a" ⟨[("general", [("port", "2121")])]⟩ "general" "port" = PyVal.i 2121 :=
  ⟨by decide, by decide,
   (get_typed_value_or_raw_string_default "/a" ⟨[("general", [("port", "2121")])]⟩).1
     "2121" 2121 (by decide) (by decide)⟩

/-- Claim C8 as stated is false at a concrete input: with a stored
unparsable port `"abc"`, `get` returns the string `"21"` (the raw
`DEFAULT_CONFIG` entry), not the integer 21 demanded by the declared
schema type. -/
theorem get_parse_failure_counterexample :
    get "/app" ⟨[("general", [("port", "abc")])]⟩ "general" "port" = PyVal.s "21" ∧
    PyVal.s "21" ≠ PyVal.i 21 := by
  decide

/-! ## Claim C3 -/

theorem applySettings_round (ap : String → String) (g : Assoc)
    (port maxc tmo : Int) (enc lvl root : String) (sl : Bool)
    (habs : ap root = root) :
    applySettings ap ⟨[("general", g)]⟩ (roundSettings port maxc tmo enc lvl root sl) =
      (⟨[("general", roundAssoc g port maxc tmo enc lvl root sl)]⟩, true) := by
  simp +decide [roundSettings, roundAssoc, applySettings, applyOptions,
    ConfigParser.set, lookupP, setP, pyStr, habs]

theorem load_config_single (cwd : String) (l : Assoc) (fs : FS) (root : String)
    (hfile : fs.file = some [("general", l)])
    (hroot : lookupA (fillOptions l (DEFAULT_general cwd)) "root_path" = some root)
    (hdir : root ∈ fs.dirs) :
    load_config cwd ⟨[]⟩ fs =
      .ok (⟨[("general", fillOptions l (DEFAULT_general cwd))]⟩, fs) := by
  have hraw : ConfigParser.rawGet ⟨[("general", fillOptions l (DEFAULT_general cwd))]⟩
      "general" "root_path" = some root := (rawGet_single _ _).trans hroot
  have hget := get_string_key cwd _ "root_path" (Or.inl rfl) root hraw
  unfold load_config
  simp only [hfile, Option.getD_some, read_empty_single, fillDefaults_single]
  rw [hget]
  simp only [pvStr]
  unfold makedirs
  rw [if_pos hdir]

theorem roundtrip_after_save (cwd : String) (A : Assoc) (fs1 : FS) (root : String)
    (port maxc tmo : Int) (enc lvl : String) (sl : Bool)
    (hfile : fs1.file = some [("general", A)])
    (hall : ∀ p ∈ DEFAULT_general cwd, (lookupA A p.1).isSome = true)
    (lport : lookupA A "port" = some (intToStr port))
    (lroot : lookupA A "root_path" = some root)
    (lmax : lookupA A "max_connections" = some (intToStr maxc))
    (ltmo : lookupA A "timeout" = some (intToStr tmo))
    (lenc : lookupA A "encoding" = some enc)
    (llvl : lookupA A "log_level" = some lvl)
    (lsl : lookupA A "save_log" = some (pyStr (PyIn.b sl)))
    (hdirs : root ∈ fs1.dirs) :
    load_config cwd ⟨[]⟩ fs1 = .ok (⟨[("general", A)]⟩, fs1) ∧
    get cwd ⟨[("general", A)]⟩ "general" "port" = PyVal.i port ∧
    get cwd ⟨[("general", A)]⟩ "general" "root_path" = PyVal.s root ∧
    get cwd ⟨[("general", A)]⟩ "general" "max_connections" = PyVal.i maxc ∧
    get cwd ⟨[("general", A)]⟩ "general" "timeout" = PyVal.i tmo ∧
    get cwd ⟨[("general", A)]⟩ "general" "encoding" = PyVal.s enc ∧
    get cwd ⟨[("general", A)]⟩ "general" "log_level" = PyVal.s lvl ∧
    get cwd ⟨[("general", A)]⟩ "general" "save_log" = PyVal.b sl := by
  refine ⟨load_config_allPresent cwd A fs1 root hfile hall lroot hdirs,
    ?_, ?_, ?_, ?_, ?_, ?_, ?_⟩
  · exact get_int_key cwd _ "port" (Or.inl rfl) _ port
      ((rawGet_single A "port").trans lport) (pyInt_intToStr port)
  · exact get_string_key cwd _ "root_path" (Or.inl rfl) root
      ((rawGet_single A "root_path").trans lroot)
  · exact get_int_key cwd _ "max_connections" (Or.inr (Or.inl rfl)) _ maxc
      ((rawGet_single A "max_connections").trans lmax) (pyInt_intToStr maxc)
  · exact get_int_key cwd _ "timeout" (Or.inr (Or.inr rfl)) _ tmo
      ((rawGet_single A "timeout").trans ltmo) (pyInt_intToStr tmo)
  · exact get_string_key cwd _ "encoding" (Or.inr (Or.inl rfl)) enc
      ((rawGet_single A "encoding").trans lenc)
  · exact get_string_key cwd _ "log_level" (Or.inr (Or.inr rfl)) lvl
      ((rawGet_single A "log_level").trans llvl)
  · exact get_bool_key cwd _ _ sl
      ((rawGet_single A "save_log").trans lsl) (pyBool_pyStr_bool sl)

/-- Claim C3 (confirmed): for every valid configuration (port 1–65535,
positive max-connections and timeout, recognized encoding and log level,
an already-absolute `root_path` that exists or can be created), `save`
succeeds, a fresh `load` of the written file succeeds, and `get` of every
recognized key returns exactly the saved value (round-trip). -/
theorem save_load_get_roundtrip
    (ap : String → String) (cwd : String) (g : Assoc) (fs : FS)
    (port maxc tmo : Int) (enc lvl root : String) (sl : Bool)
    (hport : 1 ≤ port ∧ port ≤ 65535)
    (_hmax : 1 ≤ maxc) (_htmo : 1 ≤ tmo)
    (_henc : enc = "gb18030" ∨ enc = "utf-8" ∨ enc = "latin1")
    (_hlvl : lvl = "DEBUG" ∨ lvl = "INFO" ∨ lvl = "WARNING" ∨ lvl = "ERROR" ∨
      lvl = "CRITICAL")
    (habs : ap root = root)
    (hdir : root ∈ fs.dirs ∨ fs.creatable root = true) :
    ∃ cp1 fs1 cp2,
      save ap ⟨[("general", g)]⟩ fs (roundSettings port maxc tmo enc lvl root sl) =
        (cp1, fs1, true) ∧
      load_config cwd ⟨[]⟩ fs1 = .ok (cp2, fs1) ∧
      get cwd cp2 "general" "port" = PyVal.i port ∧
      get cwd cp2 "general" "root_path" = PyVal.s root ∧
      get cwd cp2 "general" "max_connections" = PyVal.i maxc ∧
      get cwd cp2 "general" "timeout" = PyVal.i tmo ∧
      get cwd cp2 "general" "encoding" = PyVal.s enc ∧
      get cwd cp2 "general" "log_level" = PyVal.s lvl ∧
      get cwd cp2 "general" "save_log" = PyVal.b sl := by
  have happly := applySettings_round ap g port maxc tmo enc lvl root sl habs
  set A := roundAssoc g port maxc tmo enc lvl root sl with hA
  have lport : lookupA A "port" = some (intToStr port) := by
    simp +decide [hA, roundAssoc, lookupA_setA]
  have lroot : lookupA A "root_path" = some root := by
    simp +decide [hA, roundAssoc, lookupA_setA]
  have lmax : lookupA A "max_connections" = some (intToStr maxc) := by
    simp +decide [hA, roundAssoc, lookupA_setA]
  have ltmo : lookupA A "timeout" = some (intToStr tmo) := by
    simp +decide [hA, roundAssoc, lookupA_setA]
  have lenc : lookupA A "encoding" = some enc := by
    simp +decide [hA, roundAssoc, lookupA_setA]
  have llvl : lookupA A "log_level" = some lvl := by
    simp +decide [hA, roundAssoc, lookupA_setA]
  have lsl : lookupA A "save_log" = some (pyStr (PyIn.b sl)) := by
    simp +decide [hA, roundAssoc, lookupA_setA]
  have hall : ∀ p ∈ DEFAULT_general cwd, (lookupA A p.1).isSome = true := by
    intro p hp
    simp only [DEFAULT_general, List.mem_cons, List.not_mem_nil, or_false] at hp
    rcases hp with rfl | rfl | rfl | rfl | rfl | rfl | rfl <;>
      simp [lport, lroot, lmax, ltmo, lenc, llvl, lsl]
  have hrawport : ConfigParser.rawGet ⟨[("general", A)]⟩ "general" "port" =
      some (intToStr port) := (rawGet_single A "port").trans lport
  have hrawroot : ConfigParser.rawGet ⟨[("general", A)]⟩ "general" "root_path" =
      some root := (rawGet_single A "root_path").trans lroot
  by_cases hmem : root ∈ fs.dirs
  · have hsave : save ap ⟨[("general", g)]⟩ fs
        (roundSettings port maxc tmo enc lvl root sl) =
        (⟨[("general", A)]⟩, { fs with file := some [("general", A)] }, true) := by
      unfold save
      rw [happly]
      simp only [hrawport, pyInt_intToStr]
      rw [if_pos hport]
      simp only [hrawroot]
      rw [if_pos hmem]
    have hres := roundtrip_after_save cwd A { fs with file := some [("general", A)] }
      root port maxc tmo enc lvl sl rfl hall lport lroot lmax ltmo lenc llvl lsl hmem
    exact ⟨⟨[("general", A)]⟩, { fs with file := some [("general", A)] },
      ⟨[("general", A)]⟩, hsave, hres.1, hres.2.1, hres.2.2.1, hres.2.2.2.1,
      hres.2.2.2.2.1, hres.2.2.2.2.2.1, hres.2.2.2.2.2.2.1, hres.2.2.2.2.2.2.2⟩
  · have hcr : fs.creatable root = true := by
      rcases hdir with h | h
      · exact absurd h hmem
      · exact h
    have hsave : save ap ⟨[("general", g)]⟩ fs
        (roundSettings port maxc tmo enc lvl root sl) =
        (⟨[("general", A)]⟩,
         { fs with file := some [("general", A)], dirs := root :: fs.dirs }, true) := by
      unfold save
      rw [happly]
      simp only [hrawport, pyInt_intToStr]
      rw [if_pos hport]
      simp only [hrawroot]
      rw [if_neg hmem, if_pos hcr]
    have hres := roundtrip_after_save cwd A
      { fs with file := some [("general", A)], dirs := root :: fs.dirs }
      root port maxc tmo enc lvl sl rfl hall lport lroot lmax ltmo lenc llvl lsl
      (List.mem_cons_self root fs.dirs)
    exact ⟨⟨[("general", A)]⟩,
      { fs with file := some [("general", A)], dirs := root :: fs.dirs },
      ⟨[("general", A)]⟩, hsave, hres.1, hres.2.1, hres.2.2.1, hres.2.2.2.1,
      hres.2.2.2.2.1, hres.2.2.2.2.2.1, hres.2.2.2.2.2.2.1, hres.2.2.2.2.2.2.2⟩

/-- Witness for the C3 theorem at a concrete valid configuration
(port 2121, 10 connections, 60 s timeout, utf-8, INFO, root `/app`,
save_log on). -/
theorem save_load_get_roundtrip_witness :
    (1 ≤ (2121 : Int) ∧ (2121 : Int) ≤ 65535) ∧
    (∃ cp1 fs1 cp2,
      save (fun q => q) ⟨[("general", DEFAULT_general "/app")]⟩ fsA
        (roundSettings 2121 10 60 "utf-8" "INFO" "/app" true) = (cp1, fs1, true) ∧
      load_config "/app" ⟨[]⟩ fs1 = .ok (cp2, fs1) ∧
      get "/app" cp2 "general" "port" = PyVal.i 2121 ∧
      get "/app" cp2 "general" "root_path" = PyVal.s "/app" ∧
      get "/app" cp2 "general" "max_connections" = PyVal.i 10 ∧
      get "/app" cp2 "general" "timeout" = PyVal.i 60 ∧
      get "/app" cp2 "general" "encoding" = PyVal.s "utf-8" ∧
      get "/app" cp2 "general" "log_level" = PyVal.s "INFO" ∧
      get "/app" cp2 "general" "save_log" = PyVal.b true) :=
  ⟨by decide,
   save_load_get_roundtrip (fun q => q) "/app" (DEFAULT_general "/app") fsA
     2121 10 60 "utf-8" "INFO" "/app" true (by decide) (by decide) (by decide)
     (by decide) (by decide) rfl (Or.inl (by decide))⟩

/-! ## Claim C6 -/

/-- Claim C6, amended: `load` on an existing file whose `general` section
lacks a recognized key (here shown for any section missing `timeout`)
injects the schema default into the in-memory parser without altering the
present keys, but does NOT rewrite the persisted file: the file keeps
missing the key until some later successful `save`. -/
theorem load_repairs_missing_key_in_memory_only
    (cwd root : String) (l : Assoc) (fs : FS)
    (hfile : fs.file = some [("general", l)])
    (htimeout : lookupA l "timeout" = Option.none)
    (hroot : lookupA l "root_path" = some root)
    (hdir : root ∈ fs.dirs) :
    load_config cwd ⟨[]⟩ fs =
      .ok (⟨[("general", fillOptions l (DEFAULT_general cwd))]⟩, fs) ∧
    ConfigParser.rawGet ⟨[("general", fillOptions l (DEFAULT_general cwd))]⟩
      "general" "timeout" = some "300" ∧
    (∀ k v, lookupA l k = some v →
      ConfigParser.rawGet ⟨[("general", fillOptions l (DEFAULT_general cwd))]⟩
        "general" k = some v) ∧
    fileHasOption fs "general" "timeout" = false := by
  have hrootfill : lookupA (fillOptions l (DEFAULT_general cwd)) "root_path" = some root :=
    fillOptions_preserves (DEFAULT_general cwd) l "root_path" root hroot
  have hnodup : ((DEFAULT_general cwd).map Prod.fst).Nodup := by
    simp [DEFAULT_general]
  have hmem : ("timeout", "300") ∈ DEFAULT_general cwd := by
    simp [DEFAULT_general]
  refine ⟨load_config_single cwd l fs root hfile hrootfill hdir, ?_, ?_, ?_⟩
  · rw [rawGet_single]
    exact fillOptions_inserts "timeout" "300" (DEFAULT_general cwd) l hnodup hmem htimeout
  · intro k v hkv
    rw [rawGet_single]
    exact fillOptions_preserves (DEFAULT_general cwd) l k v hkv
  · unfold fileHasOption
    rw [hfile]
    simp [lookupP, htimeout]

/-- Witness for the C6 theorem at the concrete file `l0` (which lacks
`timeout`). -/
theorem load_repairs_missing_key_witness :
    lookupA l0 "timeout" = Option.none ∧
    (load_config "/app" ⟨[]⟩ fsC6 =
       .ok (⟨[("general", fillOptions l0 (DEFAULT_general "/app"))]⟩, fsC6) ∧
     ConfigParser.rawGet ⟨[("general", fillOptions l0 (DEFAULT_general "/app"))]⟩
       "general" "timeout" = some "300" ∧
     (∀ k v, lookupA l0 k = some v →
       ConfigParser.rawGet ⟨[("general", fillOptions l0 (DEFAULT_general "/app"))]⟩
         "general" k = some v) ∧
     fileHasOption fsC6 "general" "timeout" = false) :=
  ⟨by decide,
   load_repairs_missing_key_in_memory_only "/app" "/app" l0 fsC6 rfl
     (by decide) (by decide) (by decide)⟩

/-- Claim C6 as stated is false at a concrete input: after `load` on a
file missing `timeout`, the in-memory config holds the default `"300"`,
but the persisted file still does not contain the `timeout` key, so the
file does not contain every recognized key. -/
theorem load_missing_timeout_counterexample :
    (exOk (load_config "/app" ⟨[]⟩ fsC6)).map
      (fun r => fileHasOption r.2 "general" "timeout") = some false ∧
    (exOk (load_config "/app" ⟨[]⟩ fsC6)).map
      (fun r => r.1.rawGet "general" "timeout") = some (some "300") ∧
    (exOk (load_config "/app" ⟨[]⟩ fsC6)).map
      (fun r => r.1.rawGet "general" "port") = some (some "2121") := by
  decide

/-! ## Claim C1 -/

/-- Claim C1, amended: the two failure paths of a start request behave
differently.  An exception raised inside the worker's `run` (binding or
serving) is only logged — the supervisor appends a single `log_received`
line, emits no `error_occurred` event, and the externally observable
running state is NOT reverted.  Only an exception raised in the
controller half of `_start_server` itself (e.g. `add_anonymous` rejecting
a missing root directory) emits `error_occurred` and sets the observable
state back to Stopped. -/
theorem start_failure_error_event_split (cwd : String) (cp : ConfigParser) (fs : FS) :
    (∀ s w, s.server_thread = some w → w.alive = true →
      (step cwd cp fs s Act.workerError).events =
        s.events ++ [Event.logLine "服务器错误: OSError"] ∧
      (step cwd cp fs s Act.workerError).uiRunning = s.uiRunning) ∧
    (∀ s : Sup, pvStr (get cwd cp "general" "root_path") ∉ fs.dirs →
      (start_server cwd cp fs s).events =
        s.events ++ [Event.logLine startFailMsg, Event.errorMsg startFailMsg] ∧
      (start_server cwd cp fs s).uiRunning = false ∧
      (start_server cwd cp fs s).server_thread = s.server_thread) := by
  constructor
  · intro s w hst halive
    show (onWorker (threadRunBind false) s).events = _ ∧
      (onWorker (threadRunBind false) s).uiRunning = _
    unfold onWorker
    rw [hst]
    simp [halive, threadRunBind]
  · intro s hnd
    unfold start_server
    rw [if_neg hnd]
    exact ⟨rfl, rfl, rfl⟩

/-- Witness for the C1 theorem: a live worker raising during bind, and a
controller-side failure with a nonexistent root. -/
theorem start_failure_error_event_witness :
    (((step "/app" (defaultCP "/app") fsA sW Act.workerError).events =
        sW.events ++ [Event.logLine "服务器错误: OSError"] ∧
      (step "/app" (defaultCP "/app") fsA sW Act.workerError).uiRunning =
        sW.uiRunning) ∧
     ((start_server "/app" (defaultCP "/app") fsB initSup).events =
        initSup.events ++ [Event.logLine startFailMsg, Event.errorMsg startFailMsg] ∧
      (start_server "/app" (defaultCP "/app") fsB initSup).uiRunning = false ∧
      (start_server "/app" (defaultCP "/app") fsB initSup).server_thread =
        initSup.server_thread)) :=
  ⟨(start_failure_error_event_split "/app" (defaultCP "/app") fsA).1 sW wW rfl rfl,
   (start_failure_error_event_split "/app" (defaultCP "/app") fsB).2 initSup
     (by decide)⟩

/-- Claim C1 as stated is false at a concrete trace: after a start
request whose worker raises while binding, no `error_occurred` event was
ever emitted, and the externally observable state still shows running
(it never reverted to Stopped). -/
theorem start_bind_failure_counterexample :
    ((runTrace "/app" (defaultCP "/app") fsA initSup
        [Act.toggle true, Act.workerError]).events.any isErrorEv) = false ∧
    (runTrace "/app" (defaultCP "/app") fsA initSup
        [Act.toggle true, Act.workerError]).uiRunning = true := by
  decide

/-! ## Claim C4 -/

/-- Claim C4, amended: under the program's actual request interface, at
most one worker is active at any time, for every request/scheduler trace
(so Start→Stop→Start never leaves two concurrently active instances); but
a second activation request while the server is Running is not an
idempotent no-op — `_toggle_server` routes it to `_stop_server`. -/
theorem at_most_one_instance_and_toggle_stops (cwd : String) (cp : ConfigParser)
    (fs : FS) :
    (∀ tr : List Act, activeCount (runTrace cwd cp fs initSup tr) ≤ 1) ∧
    (∀ (t : Bool) (s : Sup), supRunning s = true →
      toggle_server cwd cp fs t s = stop_server t s) := by
  constructor
  · intro tr
    apply retiredDead_activeCount
    apply runTrace_retired
    intro w hw
    simp [initSup] at hw
  · intro t s h
    unfold toggle_server
    rw [if_pos h]

/-- Witness for the C4 theorem: a Start→Stop→Start-shaped trace keeps at
most one active worker, and a toggle on a running server is the stop
transition. -/
theorem at_most_one_instance_witness :
    activeCount (runTrace "/app" (defaultCP "/app") fsA initSup
      [Act.toggle true, Act.bindDone, Act.toggle true, Act.serveExit,
       Act.toggle true]) ≤ 1 ∧
    (supRunning sToggle = true ∧
     toggle_server "/app" (defaultCP "/app") fsA true sToggle =
       stop_server true sToggle) :=
  ⟨(at_most_one_instance_and_toggle_stops "/app" (defaultCP "/app") fsA).1 _,
   by decide,
   (at_most_one_instance_and_toggle_stops "/app" (defaultCP "/app") fsA).2 true
     sToggle (by decide)⟩

/-- Claim C4 as stated is false at a concrete trace: issuing a second
activation request while the server is Running does not reject it as a
no-op that leaves the running instance in place — the worker is stopped
and `Stopped` is emitted. -/
theorem second_start_request_counterexample :
    supRunning (runTrace "/app" (defaultCP "/app") fsA initSup
      [Act.toggle true, Act.bindDone, Act.toggle true]) = false ∧
    Event.stopped ∈ (runTrace "/app" (defaultCP "/app") fsA initSup
      [Act.toggle true, Act.bindDone, Act.toggle true]).events := by
  decide

/-! ## Claim C5 -/

/-- Claim C5, amended: when the worker fails to terminate within the
bounded 2-second wait, `_stop_server` does not hang, but it also ignores
the timeout entirely: it emits `Stopped` plus a plain status/log message,
emits NO Error event (in particular none mentioning a timeout), reports
the stopped state, and leaves the still-running thread object in place
(its liveness unchanged). -/
theorem stop_timeout_ignored (s : Sup) (w : ServerThread)
    (h : s.server_thread = some w) :
    (stop_server false s).events = s.events ++
      [Event.stopped, Event.statusMsg "服务器已停止", Event.logLine "服务器已停止"] ∧
    (stop_server false s).uiRunning = false ∧
    (stop_server false s).server_thread = some (threadStop w) ∧
    (threadStop w).alive = w.alive := by
  unfold stop_server
  rw [h]
  refine ⟨rfl, rfl, rfl, ?_⟩
  unfold threadStop
  split <;> rfl

/-- Witness for the C5 theorem on the concrete live worker `wW`. -/
theorem stop_timeout_ignored_witness :
    sW.server_thread = some wW ∧
    ((stop_server false sW).events = sW.events ++
      [Event.stopped, Event.statusMsg "服务器已停止", Event.logLine "服务器已停止"] ∧
     (stop_server false sW).uiRunning = false ∧
     (stop_server false sW).server_thread = some (threadStop wW) ∧
     (threadStop wW).alive = wW.alive) :=
  ⟨rfl, stop_timeout_ignored sW wW rfl⟩

/-- Claim C5 as stated is false at a concrete trace: stopping a running
server whose worker does not terminate within the wait emits no Error
event at all (so none mentioning the timeout); the UI reports Stopped
while the worker thread is in fact still alive. -/
theorem stop_timeout_counterexample :
    ((runTrace "/app" (defaultCP "/app") fsA initSup
       [Act.toggle true, Act.bindDone, Act.stopReq false]).events.any isErrorEv) =
      false ∧
    supRunning (runTrace "/app" (defaultCP "/app") fsA initSup
       [Act.toggle true, Act.bindDone, Act.stopReq false]) = true ∧
    (runTrace "/app" (defaultCP "/app") fsA initSup
       [Act.toggle true, Act.bindDone, Act.stopReq false]).uiRunning = false := by
  decide

/-! ## Claim C9 -/

/-- Claim C9 (confirmed): on a successful start request the thread handed
to the worker is built entirely from the current configuration: its
authorizer grants the anonymous principal the fixed permission string
`elradfmwM` on the configured root path, and its timeout, encoding,
utf8 flag, port and max-connections all come from the current `get`
values. -/
theorem start_server_handler_from_config (cwd : String) (cp : ConfigParser)
    (fs : FS) (s : Sup)
    (hdir : pvStr (get cwd cp "general" "root_path") ∈ fs.dirs) :
    (start_server cwd cp fs s).server_thread = some
      { wid := s.nextId,
        handler :=
          { authRoot := pvStr (get cwd cp "general" "root_path"),
            authPerm := "elradfmwM",
            timeoutV := get cwd cp "general" "timeout",
            encodingV := get cwd cp "general" "encoding",
            utf8 := strLower (pvStr (get cwd cp "general" "encoding")) == "utf-8" },
        host := "0.0.0.0",
        portV := get cwd cp "general" "port",
        max_connections := get cwd cp "general" "max_connections",
        hasServer := false, runningFlag := false, alive := true } := by
  unfold start_server
  rw [if_pos hdir]

/-- Witness for the C9 theorem on the default configuration. -/
theorem start_server_handler_witness :
    pvStr (get "/app" (defaultCP "/app") "general" "root_path") ∈ fsA.dirs ∧
    (start_server "/app" (defaultCP "/app") fsA initSup).server_thread = some
      { wid := initSup.nextId,
        handler :=
          { authRoot := pvStr (get "/app" (defaultCP "/app") "general" "root_path"),
            authPerm := "elradfmwM",
            timeoutV := get "/app" (defaultCP "/app") "general" "timeout",
            encodingV := get "/app" (defaultCP "/app") "general" "encoding",
            utf8 := strLower (pvStr (get "/app" (defaultCP "/app") "general"
              "encoding")) == "utf-8" },
        host := "0.0.0.0",
        portV := get "/app" (defaultCP "/app") "general" "port",
        max_connections := get "/app" (defaultCP "/app") "general" "max_connections",
        hasServer := false, runningFlag := false, alive := true } :=
  ⟨by decide,
   start_server_handler_from_config "/app" (defaultCP "/app") fsA initSup (by decide)⟩

/-! ## Claim C7 -/

/-- Claim C7 (confirmed): with the per-instance policy
`unicode_errors = 'replace'` set by `__init__`, `decode` returns some
text for every byte sequence and `encode` returns some bytes for every
string — neither raises, whatever codec the configured encoding resolves
to (the latin1 fallback stands ready for the strict case). -/
theorem decode_encode_total (reg : String → Codec) (h : HandlerInstance)
    (bs : List Nat) (s : String)
    (hpol : h.unicode_errors = ErrPolicy.replace) :
    (WindowsFTPHandler.decode reg h bs).isSome = true ∧
    (WindowsFTPHandler.encode reg h s).isSome = true := by
  constructor
  · have htot := bytesDecode_replace_isSome (reg h.encoding) bs
    obtain ⟨t, ht⟩ := Option.isSome_iff_exists.mp htot
    unfold WindowsFTPHandler.decode
    rw [hpol, ht]
    rfl
  · have htot := bytesEncode_replace_isSome (reg h.encoding) s
    obtain ⟨r, hr⟩ := Option.isSome_iff_exists.mp htot
    unfold WindowsFTPHandler.encode
    rw [hpol, hr]
    rfl

/-- Witness for the C7 theorem: an invalid-in-ASCII byte sequence decodes
to some text, and an arbitrary string encodes to some bytes. -/
theorem decode_encode_total_witness :
    handlerInit.unicode_errors = ErrPolicy.replace ∧
    ((WindowsFTPHandler.decode asciiReg handlerInit [255, 65]).isSome = true ∧
     (WindowsFTPHandler.encode asciiReg handlerInit "ab").isSome = true) :=
  ⟨rfl, decode_encode_total asciiReg handlerInit [255, 65] "ab" rfl⟩

/-! ## Claim C10 -/

/-- Claim C10 (confirmed): because the handler's `unicode_errors` policy
is `replace`, the primary `bytes.decode(self.encoding, errors='replace')`
never raises, so the latin1 fallback branch is unreachable: `decode`
always returns exactly the configured-encoding decoding with replacement
characters substituted for invalid bytes. -/
theorem decode_fallback_unreachable (reg : String → Codec) (h : HandlerInstance)
    (bs : List Nat) (hpol : h.unicode_errors = ErrPolicy.replace) :
    WindowsFTPHandler.decode reg h bs =
      bytesDecode (reg h.encoding) ErrPolicy.replace bs ∧
    (bytesDecode (reg h.encoding) ErrPolicy.replace bs).isSome = true := by
  have htot := bytesDecode_replace_isSome (reg h.encoding) bs
  obtain ⟨t, ht⟩ := Option.isSome_iff_exists.mp htot
  constructor
  · unfold WindowsFTPHandler.decode
    rw [hpol, ht]
  · exact htot

/-- Witness for the C10 theorem on an invalid-in-ASCII byte. -/
theorem decode_fallback_unreachable_witness :
    handlerInit.unicode_errors = ErrPolicy.replace ∧
    (WindowsFTPHandler.decode asciiReg handlerInit [200] =
       bytesDecode (asciiReg handlerInit.encoding) ErrPolicy.replace [200] ∧
     (bytesDecode (asciiReg handlerInit.encoding) ErrPolicy.replace [200]).isSome =
       true) :=
  ⟨rfl, decode_fallback_unreachable asciiReg handlerInit [200] rfl⟩

end TransEase
